import Mathlib

/-!
Verification of the polling-filter subsystem of `rpc/src/v1/impls/eth_filter.rs`
(the Eth Filter RPC implementation).  The data model and the operations are a
shallow embedding of that file: the `Filterable` trait becomes a structure of
functions (the chain data source), the `PollFilter` variants become an inductive
type, and each RPC method becomes a pure function threading the poll-manager
state explicitly.  Components of the repository that are only declared, not
defined, under the sources at hand (the poll registry, `limit_logs`, the
RPC-filter conversion, the error constructor) are modelled from the spec and
carry a doc comment saying so.
-/

namespace EthFilter

/-- 256-bit hashes, kept abstract as natural numbers. -/
abbrev H256 := Nat

/-- Raw output bytes of a transaction execution. -/
abbrev Bytes := List Nat

/-- A log record produced by the backend; equality is structural. -/
structure Log where
  block : Nat
  datum : Nat
deriving DecidableEq, Repr

/-- RPC-level block-number tag, including the pending sentinel. -/
inductive BlockNumber where
  | Num (n : Nat)
  | Latest
  | Earliest
  | Pending
deriving DecidableEq, Repr

/-- Chain-level block identifier (`ethcore::client::BlockId`). -/
inductive BlockId where
  | Hash (h : H256)
  | Number (n : Nat)
  | Earliest
  | Latest
  | Pending
deriving DecidableEq, Repr

/-- RPC-level log-filter criteria (`v1::types::Filter`): from-block, to-block,
an opaque address/topic predicate tag, and an optional result-count limit. -/
structure Filter where
  from_block : Option BlockNumber
  to_block : Option BlockNumber
  addressTopics : Nat
  limit : Option Nat
deriving DecidableEq, Repr

/-- Chain-level log-filter criteria (`ethcore::filter::Filter`). -/
structure EthcoreFilter where
  from_block : BlockId
  to_block : BlockId
  addressTopics : Nat
  limit : Option Nat
deriving DecidableEq, Repr

/-- Modelled from the spec: the RPC`BlockNumber` to `BlockId` conversion used by
the `Filter -> EthcoreFilter` conversion, which lives outside the sources at
hand; criteria are preserved tag for tag. -/
def BlockNumber.toBlockId : BlockNumber → BlockId
  | .Num n => .Number n
  | .Latest => .Latest
  | .Earliest => .Earliest
  | .Pending => .Pending

/-- Modelled from the spec: the `Filter -> EthcoreFilter` conversion
(`impl Into<EthcoreFilter> for Filter`, outside the sources at hand); it
preserves the criteria, defaulting absent bounds to latest. -/
def Filter.toEthcore (f : Filter) : EthcoreFilter :=
  { from_block := (f.from_block.map BlockNumber.toBlockId).getD .Latest
    to_block := (f.to_block.map BlockNumber.toBlockId).getD .Latest
    addressTopics := f.addressTopics
    limit := f.limit }

/-- Outcome of `replay_block_transactions`: the source distinguishes
`Ok(Ok(..))`, `Ok(Err(CallError))` and `Err(rpc error)`; the two failure
levels are both skipped with a warning. -/
inductive ReplayOutcome where
  | ok (outputs : List Bytes)
  | callError
  | rpcError
deriving DecidableEq, Repr

/-- An encoded block body; only its transaction hashes are consumed. -/
structure Body where
  transaction_hashes : List H256
deriving DecidableEq, Repr

/-- The chain data source: the `Filterable` trait of the source file, as a
structure of functions.  One value represents one consistent snapshot of the
backend. -/
structure Filterable where
  best_block_number : Nat
  block_hash : BlockId → Option H256
  block_body : BlockId → Option Body
  pending_transactions_hashes : List H256
  logs : EthcoreFilter → List Log
  pending_logs : Nat → EthcoreFilter → List Log
  replay_block_transactions : BlockId → ReplayOutcome

/-- Filter state (`v1::helpers::PollFilter`), one variant per filter class,
each carrying its cursor. -/
inductive PollFilter where
  | Block (next_block : Nat)
  | PendingTransaction (known_hashes : List H256)
  | Logs (next_block : Nat) (previous_logs : List Log) (filter : Filter)
  | ReturnData (next_block : Nat)
deriving DecidableEq, Repr

/-- A return-data record: transaction hash, raw output bytes, removal flag. -/
structure ReturnData where
  transaction_hash : H256
  return_data : Bytes
  removed : Bool
deriving DecidableEq, Repr

/-- The possible poll-filter-changes payloads. -/
inductive FilterChanges where
  | Hashes (hs : List H256)
  | Logs (ls : List Log)
  | ReturnData (rd : List ReturnData)
deriving DecidableEq, Repr

/-- Request-level errors surfaced by this subsystem. Modelled from the spec:
the `errors` helper module is outside the sources at hand; only the
filter-not-found failure is produced here. -/
inductive RpcError where
  | filter_not_found
deriving DecidableEq, Repr

/-- Modelled from the spec: the filter registry (`v1::helpers::PollManager`,
outside the sources at hand).  It owns the identifier-to-state mapping and a
monotonically-issued counter; identifiers are never reused while live. -/
structure PollManager where
  next_available_id : Nat
  polls : List (Nat × PollFilter)
deriving DecidableEq, Repr

/-- Modelled from the spec: a fresh, empty registry. -/
def PollManager.new : PollManager := ⟨0, []⟩

/-- Modelled from the spec: allocate a fresh identifier and store the state. -/
def PollManager.create_poll (m : PollManager) (f : PollFilter) : Nat × PollManager :=
  (m.next_available_id, ⟨m.next_available_id + 1, m.polls ++ [(m.next_available_id, f)]⟩)

/-- Modelled from the spec: read-only lookup of a filter by identifier. -/
def PollManager.poll (m : PollManager) (id : Nat) : Option PollFilter :=
  (m.polls.find? (fun p => p.1 == id)).map Prod.snd

/-- Modelled from the spec: in-place mutation of the filter stored under an
identifier (the registry-side effect of `poll_mut` during a change
computation). -/
def PollManager.set_poll (m : PollManager) (id : Nat) (f : PollFilter) : PollManager :=
  ⟨m.next_available_id, m.polls.map (fun p => if p.1 == id then (p.1, f) else p)⟩

/-- Modelled from the spec: delete a filter, reporting whether it existed. -/
def PollManager.remove_poll (m : PollManager) (id : Nat) : Bool × PollManager :=
  (m.polls.any (fun p => p.1 == id), ⟨m.next_available_id, m.polls.filter (fun p => !(p.1 == id))⟩)

/-- Modelled from the spec: `limit_logs` (outside the sources at hand) applies
an optional result-count limit by keeping the most recent entries up to the
limit, discarding older ones. -/
def limit_logs (logs : List Log) (limit : Option Nat) : List Log :=
  match limit with
  | some l => logs.drop (logs.length - l)
  | none => logs

/-- `new_filter`: register a log filter; the cursor is the best block number at
registration time and the known-pending-log set starts empty. -/
def new_filter (B : Filterable) (m : PollManager) (f : Filter) : Nat × PollManager :=
  m.create_poll (PollFilter.Logs B.best_block_number [] f)

/-- `new_block_filter`: register a block filter; +1, since the current block is
not to be included. -/
def new_block_filter (B : Filterable) (m : PollManager) : Nat × PollManager :=
  m.create_poll (PollFilter.Block (B.best_block_number + 1))

/-- `new_pending_transaction_filter`: register a pending-transaction filter;
the cursor is the current pending-transaction-hash list. -/
def new_pending_transaction_filter (B : Filterable) (m : PollManager) : Nat × PollManager :=
  m.create_poll (PollFilter.PendingTransaction B.pending_transactions_hashes)

/-- `new_return_data_filter`: register a return-data filter; the cursor is the
best block number at registration time. -/
def new_return_data_filter (B : Filterable) (m : PollManager) : Nat × PollManager :=
  m.create_poll (PollFilter.ReturnData B.best_block_number)

/-- The effective backend query filter built by the log-filter change
computation: the original criteria with from-block set to the stored cursor
and to-block set to latest. -/
def effective_filter (f : Filter) (block_number : Nat) : EthcoreFilter :=
  { f.toEthcore with from_block := .Number block_number, to_block := .Latest }

/-- `filter_changes`: the per-variant change computation.  Returns the delta
since the stored cursor and the registry with the cursor advanced; an unknown
identifier fails with filter-not-found and mutates nothing. -/
def filter_changes (B : Filterable) (m : PollManager) (index : Nat) :
    Except RpcError FilterChanges × PollManager :=
  match m.poll index with
  | none => (.error .filter_not_found, m)
  | some pf =>
    match pf with
    | .Block block_number =>
        -- +1, since the hashes returned include the current block hash.
        let current_number := B.best_block_number + 1
        let hashes := (List.range' block_number (current_number - block_number)).filterMap
          (fun n => B.block_hash (.Number n))
        (.ok (.Hashes hashes), m.set_poll index (.Block current_number))
    | .PendingTransaction previous_hashes =>
        let current_hashes := B.pending_transactions_hashes
        let new_hashes := current_hashes.filter (fun h => decide (h ∉ previous_hashes))
        (.ok (.Hashes new_hashes), m.set_poll index (.PendingTransaction current_hashes))
    | .Logs block_number previous_logs f =>
        let current_number := B.best_block_number
        let include_pending := f.to_block = some .Pending
        let filter := effective_filter f block_number
        let pendingPair :=
          if include_pending then
            let pending_logs := B.pending_logs current_number filter
            (pending_logs.filter (fun p => decide (p ∉ previous_logs)), pending_logs)
          else ([], previous_logs)
        let limit := filter.limit
        (.ok (.Logs (limit_logs (B.logs filter ++ pendingPair.1) limit)),
         m.set_poll index (.Logs (current_number + 1) pendingPair.2 f))
    | .ReturnData block_number =>
        -- +1, since the records returned include the current block.
        let current_number := B.best_block_number + 1
        let executed : List (BlockId × List Bytes) :=
          (List.range' block_number (current_number - block_number)).filterMap
            (fun block =>
              match B.replay_block_transactions (.Number block) with
              | .ok outputs => some (BlockId.Number block, outputs)
              | .callError => none
              | .rpcError => none)
        let return_data : List (List ReturnData) :=
          executed.map (fun be =>
            match B.block_body be.1 with
            | none => []
            | some body =>
                (be.2.zip body.transaction_hashes).map
                  (fun p => { transaction_hash := p.2, return_data := p.1, removed := false }))
        (.ok (.ReturnData return_data.flatten), m.set_poll index (.ReturnData current_number))

/-- `filter_logs`: a full re-query against the original criteria; a non-log
filter yields the empty list, an unknown identifier fails. -/
def filter_logs (B : Filterable) (m : PollManager) (index : Nat) :
    Except RpcError (List Log) × PollManager :=
  match m.poll index with
  | some (.Logs _ _ f) =>
      let include_pending := f.to_block = some .Pending
      let filter := f.toEthcore
      let pending := if include_pending then B.pending_logs B.best_block_number filter else []
      let limit := filter.limit
      (.ok (limit_logs (B.logs filter ++ pending) limit), m)
  | some _ => (.ok [], m)
  | none => (.error .filter_not_found, m)

/-- `uninstall_filter`: remove a filter, reporting whether it existed. -/
def uninstall_filter (m : PollManager) (index : Nat) : Bool × PollManager :=
  m.remove_poll index

/-- The records a single block contributes to a return-data poll: nothing when
its replay fails at either level or its body is missing; otherwise the output
bytes zipped positionally with the body's transaction hashes, removed fixed to
false. -/
def block_return_data (B : Filterable) (n : Nat) : List ReturnData :=
  match B.replay_block_transactions (.Number n) with
  | .ok outputs =>
      match B.block_body (.Number n) with
      | none => []
      | some body =>
          (outputs.zip body.transaction_hashes).map
            (fun p => { transaction_hash := p.2, return_data := p.1, removed := false })
  | .callError => []
  | .rpcError => []

/-- The cursor carried by a filter variant, when it has one: block, log and
return-data filters carry a next-block cursor; pending-transaction filters do
not. -/
def cursorOf : PollFilter → Option Nat
  | .Block b => some b
  | .PendingTransaction _ => none
  | .Logs b _ _ => some b
  | .ReturnData b => some b

/-- One operation of the external interface, for reasoning about sequences of
calls against the registry. -/
inductive Op where
  | newFilter (f : Filter)
  | newBlockFilter
  | newPendingTransactionFilter
  | newReturnDataFilter
  | filterChanges (id : Nat)
  | filterLogs (id : Nat)
  | uninstallFilter (id : Nat)

/-- The registry-state effect of one operation against one backend snapshot. -/
def step (B : Filterable) (op : Op) (m : PollManager) : PollManager :=
  match op with
  | .newFilter f => (new_filter B m f).2
  | .newBlockFilter => (new_block_filter B m).2
  | .newPendingTransactionFilter => (new_pending_transaction_filter B m).2
  | .newReturnDataFilter => (new_return_data_filter B m).2
  | .filterChanges id => (filter_changes B m id).2
  | .filterLogs id => (filter_logs B m id).2
  | .uninstallFilter id => (uninstall_filter m id).2

/-- Run a sequence of operations, each against its own backend snapshot. -/
def runTrace (m : PollManager) : List (Filterable × Op) → PollManager
  | [] => m
  | x :: rest => runTrace (step x.1 x.2 m) rest

/-- The chain-data-source precondition: along the trace the best block number
never decreases (each snapshot's best is at least the previous one's). -/
def BestsMono (bd : Nat) : List (Filterable × Op) → Prop
  | [] => True
  | x :: rest => bd ≤ x.1.best_block_number ∧ BestsMono x.1.best_block_number rest

/-- The best block number of the last snapshot of a trace, or the given bound
for the empty trace. -/
def lastBest (bd : Nat) : List (Filterable × Op) → Nat
  | [] => bd
  | x :: rest => lastBest x.1.best_block_number rest

/-- Cursor invariant: every live cursor is at most the given best block number
plus one. -/
def Inv (bd : Nat) (m : PollManager) : Prop :=
  ∀ id pf, m.poll id = some pf → ∀ c, cursorOf pf = some c → c ≤ bd + 1

/-- A concrete backend snapshot used to exercise the theorems on closed
inputs: best block 5, resolvable blocks up to 5, three pending transactions. -/
def Bex : Filterable where
  best_block_number := 5
  block_hash := fun id => match id with
    | .Number n => if n ≤ 5 then some (100 + n) else none
    | _ => none
  block_body := fun id => match id with
    | .Number n => if n ≤ 5 then some ⟨[70 + n]⟩ else none
    | _ => none
  pending_transactions_hashes := [7, 8, 9]
  logs := fun F => match F.from_block with
    | .Number n => if n ≤ 5 then [⟨n, 0⟩] else []
    | _ => []
  pending_logs := fun bn _ => [⟨bn, 1⟩]
  replay_block_transactions := fun id => match id with
    | .Number n => if n ≤ 5 then .ok [[n]] else .callError
    | _ => .rpcError

/-- A concrete registry holding one live filter of each class. -/
def mex : PollManager :=
  ⟨10, [(0, .Block 3), (1, .PendingTransaction [7, 50]),
        (2, .Logs 2 [⟨5, 1⟩] ⟨some (.Num 1), some .Pending, 0, some 2⟩),
        (3, .ReturnData 4), (4, .Logs 2 [] ⟨none, some .Latest, 0, none⟩)]⟩

/-- A backend snapshot on which block 5 (the best block) replays successfully
with one transaction and has a body, while nothing is pending. -/
def Bc1 : Filterable where
  best_block_number := 5
  block_hash := fun _ => none
  block_body := fun id => match id with
    | .Number n => if n = 5 then some ⟨[42]⟩ else none
    | _ => none
  pending_transactions_hashes := []
  logs := fun _ => []
  pending_logs := fun _ _ => []
  replay_block_transactions := fun id => match id with
    | .Number n => if n = 5 then .ok [[9]] else .callError
    | _ => .rpcError

/-! ### Registry lemmas -/

theorem find?_append_eq {α : Type} (l₁ l₂ : List α) (p : α → Bool) :
    (l₁ ++ l₂).find? p = ((l₁.find? p).orElse (fun _ => l₂.find? p)) := by
  induction l₁ with
  | nil => rfl
  | cons a l ih =>
      by_cases h : p a = true
      · simp [List.find?, h]
      · simp only [List.cons_append, List.find?]
        rw [Bool.not_eq_true] at h
        simp [h, ih]

theorem poll_create_poll_old (m : PollManager) (f : PollFilter) (id : Nat) (pf : PollFilter)
    (h : m.poll id = some pf) : (m.create_poll f).2.poll id = some pf := by
  unfold PollManager.poll at h ⊢
  unfold PollManager.create_poll
  simp only [find?_append_eq]
  cases hf : m.polls.find? (fun p => p.1 == id) with
  | none => simp [hf] at h
  | some x => simp [hf] at h ⊢; exact h

theorem poll_create_poll_fresh (m : PollManager) (f : PollFilter)
    (h : m.poll m.next_available_id = none) :
    (m.create_poll f).2.poll (m.create_poll f).1 = some f := by
  unfold PollManager.poll at h ⊢
  unfold PollManager.create_poll
  simp only [find?_append_eq]
  cases hf : m.polls.find? (fun p => p.1 == m.next_available_id) with
  | none => simp [hf, List.find?]
  | some x => simp [hf] at h

theorem poll_create_poll_cases (m : PollManager) (f : PollFilter) (id : Nat) :
    (m.create_poll f).2.poll id = ((m.poll id).orElse
      (fun _ => if m.next_available_id = id then some f else none)) := by
  unfold PollManager.poll PollManager.create_poll
  simp only [find?_append_eq]
  cases hf : m.polls.find? (fun p => p.1 == id) with
  | none =>
      cases hb : (m.next_available_id == id) with
      | true =>
          have hb2 : m.next_available_id = id := by simpa using hb
          simp [List.find?, hb, hb2]
      | false =>
          have hb2 : m.next_available_id ≠ id := by simpa using hb
          simp [List.find?, hb, hb2]
  | some x => simp

theorem find?_map_set_self (l : List (Nat × PollFilter)) (id : Nat) (f : PollFilter) :
    ((l.map (fun p => if p.1 == id then (p.1, f) else p)).find? (fun p => p.1 == id)).map Prod.snd
      = ((l.find? (fun p => p.1 == id)).map Prod.snd).map (fun _ => f) := by
  induction l with
  | nil => rfl
  | cons a l ih =>
      cases hb : (a.1 == id) with
      | true => simp [List.find?, hb]
      | false => simpa [List.find?, hb] using ih

theorem poll_set_poll_self (m : PollManager) (id : Nat) (f : PollFilter) :
    (m.set_poll id f).poll id = (m.poll id).map (fun _ => f) := by
  unfold PollManager.poll PollManager.set_poll
  exact find?_map_set_self m.polls id f

theorem find?_map_set_ne (l : List (Nat × PollFilter)) (id j : Nat) (f : PollFilter)
    (h : id ≠ j) :
    ((l.map (fun p => if p.1 == j then (p.1, f) else p)).find? (fun p => p.1 == id)).map Prod.snd
      = (l.find? (fun p => p.1 == id)).map Prod.snd := by
  induction l with
  | nil => rfl
  | cons a l ih =>
      cases hj : (a.1 == j) with
      | true =>
          have hb : (a.1 == id) = false := by
            simp at hj ⊢; omega
          simpa [List.find?, hj, hb] using ih
      | false =>
          cases hb : (a.1 == id) with
          | true => simp [List.find?, hj, hb]
          | false => simpa [List.find?, hj, hb] using ih

theorem poll_set_poll_ne (m : PollManager) (id j : Nat) (f : PollFilter) (h : id ≠ j) :
    (m.set_poll j f).poll id = m.poll id := by
  unfold PollManager.poll PollManager.set_poll
  exact find?_map_set_ne m.polls id j f h

theorem find?_filter_remove (l : List (Nat × PollFilter)) (id j : Nat) :
    ((l.filter (fun p => !(p.1 == j))).find? (fun p => p.1 == id)).map Prod.snd
      = if id = j then none else (l.find? (fun p => p.1 == id)).map Prod.snd := by
  induction l with
  | nil => simp
  | cons a l ih =>
      cases hj : (a.1 == j) with
      | true =>
          by_cases hid : id = j
          · simpa [List.filter_cons, hj, hid] using ih
          · have hb : (a.1 == id) = false := by
              simp at hj ⊢; omega
            simpa [List.filter_cons, hj, hid, List.find?, hb] using ih
      | false =>
          cases hb : (a.1 == id) with
          | true =>
              have hid : ¬ id = j := by simp at hj hb; omega
              simp [List.filter_cons, hj, List.find?, hb, hid]
          | false => simpa [List.filter_cons, hj, List.find?, hb] using ih

theorem poll_remove_poll (m : PollManager) (id j : Nat) :
    (m.remove_poll j).2.poll id = if id = j then none else m.poll id := by
  unfold PollManager.poll PollManager.remove_poll
  exact find?_filter_remove m.polls id j

theorem remove_poll_fst (m : PollManager) (j : Nat) :
    (m.remove_poll j).1 = true ↔ (m.poll j).isSome = true := by
  unfold PollManager.poll PollManager.remove_poll
  simp only
  induction m.polls with
  | nil => simp
  | cons a l ih =>
      cases hb : (a.1 == j) with
      | true => simp [List.any_cons, List.find?, hb]
      | false => simpa [List.any_cons, List.find?, hb] using ih

/-! ### Characterizations of the operations' state effect -/

theorem filter_changes_snd (B : Filterable) (m : PollManager) (j : Nat) :
    (filter_changes B m j).2 = match m.poll j with
      | none => m
      | some (.Block _) => m.set_poll j (.Block (B.best_block_number + 1))
      | some (.PendingTransaction _) =>
          m.set_poll j (.PendingTransaction B.pending_transactions_hashes)
      | some (.Logs b prev f) =>
          m.set_poll j (.Logs (B.best_block_number + 1)
            (if f.to_block = some .Pending then
               B.pending_logs B.best_block_number (effective_filter f b)
             else prev) f)
      | some (.ReturnData _) => m.set_poll j (.ReturnData (B.best_block_number + 1)) := by
  unfold filter_changes
  cases h : m.poll j with
  | none => rfl
  | some pf =>
      cases pf with
      | Block b => rfl
      | PendingTransaction hs => rfl
      | Logs b prev f =>
          by_cases hp : f.to_block = some .Pending <;> simp [hp]
      | ReturnData b => rfl

theorem filter_logs_snd (B : Filterable) (m : PollManager) (j : Nat) :
    (filter_logs B m j).2 = m := by
  unfold filter_logs
  cases h : m.poll j with
  | none => rfl
  | some pf => cases pf <;> rfl

/-! ### Generic list helpers -/

theorem length_filterMap_of_isSome {α β : Type} (l : List α) (f : α → Option β)
    (h : ∀ x ∈ l, (f x).isSome = true) : (l.filterMap f).length = l.length := by
  induction l with
  | nil => rfl
  | cons a l ih =>
      cases hf : f a with
      | none =>
          exfalso
          have := h a (by simp)
          simp [hf] at this
      | some b =>
          simp only [List.filterMap_cons, hf, List.length_cons]
          rw [ih (fun x hx => h x (by simp [hx]))]

/-! ### Claim theorems -/

/-- C2: a poll on a block filter with cursor next-block returns exactly the
hashes of the block numbers in the half-open range from next-block to
best-block-number + 1, in ascending block-number order (the filter-map over
the ascending enumeration), omitting numbers whose hash lookup fails; the
cursor afterwards equals best-block-number + 1, and when every number in the
range resolves the poll returns exactly one hash per new block. -/
theorem block_filter_poll_spec (B : Filterable) (m : PollManager) (id b : Nat)
    (h : m.poll id = some (.Block b)) :
    (filter_changes B m id).1 = .ok (.Hashes
      ((List.range' b (B.best_block_number + 1 - b)).filterMap
        (fun n => B.block_hash (.Number n)))) ∧
    (filter_changes B m id).2.poll id = some (.Block (B.best_block_number + 1)) ∧
    ((∀ n ∈ List.range' b (B.best_block_number + 1 - b),
        (B.block_hash (.Number n)).isSome = true) →
      ((List.range' b (B.best_block_number + 1 - b)).filterMap
        (fun n => B.block_hash (.Number n))).length = B.best_block_number + 1 - b) := by
  refine ⟨?_, ?_, ?_⟩
  · simp [filter_changes, h]
  · rw [filter_changes_snd, h, poll_set_poll_self, h]
    rfl
  · intro hall
    rw [length_filterMap_of_isSome _ _ hall, List.length_range']

/-- C2 witness: the block filter registered under identifier 0 of the example
registry, polled against the example backend. -/
theorem block_filter_poll_spec_witness :
    (filter_changes Bex mex 0).1 = .ok (.Hashes
      ((List.range' 3 (Bex.best_block_number + 1 - 3)).filterMap
        (fun n => Bex.block_hash (.Number n)))) ∧
    (filter_changes Bex mex 0).2.poll 0 = some (.Block (Bex.best_block_number + 1)) ∧
    ((∀ n ∈ List.range' 3 (Bex.best_block_number + 1 - 3),
        (Bex.block_hash (.Number n)).isSome = true) →
      ((List.range' 3 (Bex.best_block_number + 1 - 3)).filterMap
        (fun n => Bex.block_hash (.Number n))).length = Bex.best_block_number + 1 - 3) :=
  block_filter_poll_spec Bex mex 0 3 (by decide)

/-- C3: a poll on a pending-transaction filter returns exactly the backend's
current pending hashes that are not in the stored known set, in the order the
backend supplied them; the stored set is afterwards replaced by the full
current list, and a hash absent from the current list is not reported. -/
theorem pending_tx_filter_poll_spec (B : Filterable) (m : PollManager) (id : Nat)
    (known : List H256) (h : m.poll id = some (.PendingTransaction known)) :
    (filter_changes B m id).1 = .ok (.Hashes
      (B.pending_transactions_hashes.filter (fun x => decide (x ∉ known)))) ∧
    (filter_changes B m id).2.poll id =
      some (.PendingTransaction B.pending_transactions_hashes) ∧
    (∀ x, x ∉ B.pending_transactions_hashes →
      x ∉ B.pending_transactions_hashes.filter (fun y => decide (y ∉ known))) := by
  refine ⟨?_, ?_, ?_⟩
  · simp [filter_changes, h]
  · rw [filter_changes_snd, h, poll_set_poll_self, h]
    rfl
  · intro x hx hmem
    exact hx (List.mem_of_mem_filter hmem)

/-- C3 witness: the pending-transaction filter registered under identifier 1
of the example registry knows hashes 7 and 50; against the example backend the
delta is exactly the pending hashes 8 and 9. -/
theorem pending_tx_filter_poll_spec_witness :
    (filter_changes Bex mex 1).1 = .ok (.Hashes
      (Bex.pending_transactions_hashes.filter (fun x => decide (x ∉ [7, 50])))) ∧
    (filter_changes Bex mex 1).2.poll 1 =
      some (.PendingTransaction Bex.pending_transactions_hashes) ∧
    (∀ x, x ∉ Bex.pending_transactions_hashes →
      x ∉ Bex.pending_transactions_hashes.filter (fun y => decide (y ∉ [7, 50]))) :=
  pending_tx_filter_poll_spec Bex mex 1 [7, 50] (by decide)

/-- C4: a poll on a log filter queries the backend over the effective range
(from the stored cursor to latest); when the criteria's to-block is the
pending sentinel the current pending logs not structurally contained in the
stored known set are appended and the known set is replaced by the full
current pending-log set, otherwise no pending logs are appended and the known
set is kept; the result is truncated by the criteria's limit keeping the most
recent entries, and the cursor afterwards equals best-block-number + 1. -/
theorem log_filter_poll_spec (B : Filterable) (m : PollManager) (id b : Nat)
    (prev : List Log) (f : Filter) (h : m.poll id = some (.Logs b prev f)) :
    (f.to_block = some .Pending →
      (filter_changes B m id).1 = .ok (.Logs (limit_logs
        (B.logs (effective_filter f b) ++
          (B.pending_logs B.best_block_number (effective_filter f b)).filter
            (fun p => decide (p ∉ prev)))
        (effective_filter f b).limit)) ∧
      (filter_changes B m id).2.poll id = some (.Logs (B.best_block_number + 1)
        (B.pending_logs B.best_block_number (effective_filter f b)) f)) ∧
    (f.to_block ≠ some .Pending →
      (filter_changes B m id).1 = .ok (.Logs (limit_logs
        (B.logs (effective_filter f b)) (effective_filter f b).limit)) ∧
      (filter_changes B m id).2.poll id =
        some (.Logs (B.best_block_number + 1) prev f)) := by
  constructor
  · intro hp
    constructor
    · simp [filter_changes, h, hp]
    · rw [filter_changes_snd, h]
      simp only [hp, if_pos]
      rw [poll_set_poll_self, h]
      rfl
  · intro hp
    constructor
    · simp [filter_changes, h, hp]
    · rw [filter_changes_snd, h]
      simp only [hp, if_neg]
      rw [poll_set_poll_self, h]
      rfl

/-- C4 witness: the pending-sentinel log filter registered under identifier 2
of the example registry, polled against the example backend. -/
theorem log_filter_poll_spec_witness :
    ((⟨some (.Num 1), some .Pending, 0, some 2⟩ : Filter).to_block = some .Pending →
      (filter_changes Bex mex 2).1 = .ok (.Logs (limit_logs
        (Bex.logs (effective_filter ⟨some (.Num 1), some .Pending, 0, some 2⟩ 2) ++
          (Bex.pending_logs Bex.best_block_number
            (effective_filter ⟨some (.Num 1), some .Pending, 0, some 2⟩ 2)).filter
            (fun p => decide (p ∉ [(⟨5, 1⟩ : Log)])))
        (effective_filter ⟨some (.Num 1), some .Pending, 0, some 2⟩ 2).limit)) ∧
      (filter_changes Bex mex 2).2.poll 2 = some (.Logs (Bex.best_block_number + 1)
        (Bex.pending_logs Bex.best_block_number
          (effective_filter ⟨some (.Num 1), some .Pending, 0, some 2⟩ 2))
        ⟨some (.Num 1), some .Pending, 0, some 2⟩)) ∧
    ((⟨some (.Num 1), some .Pending, 0, some 2⟩ : Filter).to_block ≠ some .Pending →
      (filter_changes Bex mex 2).1 = .ok (.Logs (limit_logs
        (Bex.logs (effective_filter ⟨some (.Num 1), some .Pending, 0, some 2⟩ 2))
        (effective_filter ⟨some (.Num 1), some .Pending, 0, some 2⟩ 2).limit)) ∧
      (filter_changes Bex mex 2).2.poll 2 = some (.Logs (Bex.best_block_number + 1)
        [(⟨5, 1⟩ : Log)] ⟨some (.Num 1), some .Pending, 0, some 2⟩)) :=
  log_filter_poll_spec Bex mex 2 2 [⟨5, 1⟩] ⟨some (.Num 1), some .Pending, 0, some 2⟩
    (by decide)

/-- C5: poll-filter-logs fails with filter-not-found exactly when the
identifier is unknown; a non-log filter yields the empty list; a log filter
re-queries the backend with the original criteria (not the stored cursor),
appending pending logs when to-block is the pending sentinel and applying the
criteria's limit; the registry is read, never written. -/
theorem filter_logs_spec (B : Filterable) (m : PollManager) (id : Nat) :
    ((filter_logs B m id).1 = .error .filter_not_found ↔ m.poll id = none) ∧
    (∀ pf, m.poll id = some pf → (∀ b prev f, pf ≠ .Logs b prev f) →
      (filter_logs B m id).1 = .ok []) ∧
    (∀ b prev f, m.poll id = some (.Logs b prev f) →
      (filter_logs B m id).1 = .ok (limit_logs
        (B.logs f.toEthcore ++
          (if f.to_block = some .Pending then
             B.pending_logs B.best_block_number f.toEthcore
           else []))
        f.toEthcore.limit)) := by
  refine ⟨?_, ?_, ?_⟩
  · cases h : m.poll id with
    | none => simp [filter_logs, h]
    | some pf => cases pf <;> simp [filter_logs, h]
  · intro pf hpf hnot
    cases pf with
    | Logs b prev f => exact absurd rfl (hnot b prev f)
    | Block b => simp [filter_logs, hpf]
    | PendingTransaction hs => simp [filter_logs, hpf]
    | ReturnData b => simp [filter_logs, hpf]
  · intro b prev f hpf
    simp [filter_logs, hpf]

/-- C5 witness: poll-filter-logs against the example registry and backend at
identifier 2 (a live log filter). -/
theorem filter_logs_spec_witness :
    ((filter_logs Bex mex 2).1 = .error .filter_not_found ↔ mex.poll 2 = none) ∧
    (∀ pf, mex.poll 2 = some pf → (∀ b prev f, pf ≠ .Logs b prev f) →
      (filter_logs Bex mex 2).1 = .ok []) ∧
    (∀ b prev f, mex.poll 2 = some (.Logs b prev f) →
      (filter_logs Bex mex 2).1 = .ok (limit_logs
        (Bex.logs f.toEthcore ++
          (if f.to_block = some .Pending then
             Bex.pending_logs Bex.best_block_number f.toEthcore
           else []))
        f.toEthcore.limit)) :=
  filter_logs_spec Bex mex 2

/-- Bridging the source's two-phase return-data computation (first collect the
successfully replayed blocks, then fetch bodies and zip) with the per-block
contribution function. -/
theorem two_phase_return_data (B : Filterable) (l : List Nat) :
    ((l.filterMap (fun block =>
        match B.replay_block_transactions (.Number block) with
        | .ok outputs => some (BlockId.Number block, outputs)
        | .callError => none
        | .rpcError => none)).map (fun be =>
          match B.block_body be.1 with
          | none => []
          | some body =>
              (be.2.zip body.transaction_hashes).map
                (fun p => ({ transaction_hash := p.2, return_data := p.1,
                             removed := false } : ReturnData)))).flatten
      = (l.map (block_return_data B)).flatten := by
  induction l with
  | nil => rfl
  | cons a l ih =>
      cases hr : B.replay_block_transactions (.Number a) with
      | ok outputs =>
          simp only [List.filterMap_cons, hr, List.map_cons, List.flatten_cons,
            block_return_data, ih]
      | callError =>
          simp only [List.filterMap_cons, hr, List.map_cons, List.flatten_cons,
            block_return_data, ih, List.nil_append]
      | rpcError =>
          simp only [List.filterMap_cons, hr, List.map_cons, List.flatten_cons,
            block_return_data, ih, List.nil_append]

/-- C6: a return-data poll returns, in block order, the concatenation of the
per-block contributions over the half-open range from the stored cursor to
best-block-number + 1; a block whose replay fails at either level or whose
body is missing contributes nothing, the result is always a success (never an
error), and the cursor still advances to best-block-number + 1, so failed
blocks are never retried; a successfully processed block contributes one
record per transaction, pairing output bytes with transaction hashes by
position, with the removed flag false. -/
theorem return_data_poll_spec (B : Filterable) (m : PollManager) (id b : Nat)
    (h : m.poll id = some (.ReturnData b)) :
    (filter_changes B m id).1 = .ok (.ReturnData
      (((List.range' b (B.best_block_number + 1 - b)).map (block_return_data B)).flatten)) ∧
    (filter_changes B m id).2.poll id = some (.ReturnData (B.best_block_number + 1)) ∧
    (∀ n, B.replay_block_transactions (.Number n) = .callError →
      block_return_data B n = []) ∧
    (∀ n, B.replay_block_transactions (.Number n) = .rpcError →
      block_return_data B n = []) ∧
    (∀ n outputs, B.replay_block_transactions (.Number n) = .ok outputs →
      B.block_body (.Number n) = none → block_return_data B n = []) ∧
    (∀ n outputs body, B.replay_block_transactions (.Number n) = .ok outputs →
      B.block_body (.Number n) = some body →
      block_return_data B n = (outputs.zip body.transaction_hashes).map
        (fun p => { transaction_hash := p.2, return_data := p.1, removed := false })) := by
  refine ⟨?_, ?_, ?_, ?_, ?_, ?_⟩
  · simp only [filter_changes, h]
    rw [two_phase_return_data]
  · rw [filter_changes_snd, h, poll_set_poll_self, h]
    rfl
  · intro n hr
    simp [block_return_data, hr]
  · intro n hr
    simp [block_return_data, hr]
  · intro n outputs hr hb
    simp [block_return_data, hr, hb]
  · intro n outputs body hr hb
    simp [block_return_data, hr, hb]

/-- C6 witness: the return-data filter registered under identifier 3 of the
example registry, polled against the example backend. -/
theorem return_data_poll_spec_witness :
    (filter_changes Bex mex 3).1 = .ok (.ReturnData
      (((List.range' 4 (Bex.best_block_number + 1 - 4)).map
        (block_return_data Bex)).flatten)) ∧
    (filter_changes Bex mex 3).2.poll 3 = some (.ReturnData (Bex.best_block_number + 1)) ∧
    (∀ n, Bex.replay_block_transactions (.Number n) = .callError →
      block_return_data Bex n = []) ∧
    (∀ n, Bex.replay_block_transactions (.Number n) = .rpcError →
      block_return_data Bex n = []) ∧
    (∀ n outputs, Bex.replay_block_transactions (.Number n) = .ok outputs →
      Bex.block_body (.Number n) = none → block_return_data Bex n = []) ∧
    (∀ n outputs body, Bex.replay_block_transactions (.Number n) = .ok outputs →
      Bex.block_body (.Number n) = some body →
      block_return_data Bex n = (outputs.zip body.transaction_hashes).map
        (fun p => { transaction_hash := p.2, return_data := p.1, removed := false })) :=
  return_data_poll_spec Bex mex 3 4 (by decide)

/-- C8: remove-filter reports true exactly when the identifier names a live
filter, and after a successful removal a poll-filter-changes against that
identifier fails with filter-not-found. -/
theorem uninstall_filter_spec (B : Filterable) (m : PollManager) (id : Nat) :
    ((uninstall_filter m id).1 = true ↔ (m.poll id).isSome = true) ∧
    ((uninstall_filter m id).1 = true →
      (filter_changes B (uninstall_filter m id).2 id).1 = .error .filter_not_found) := by
  constructor
  · exact remove_poll_fst m id
  · intro _
    have hnone : (uninstall_filter m id).2.poll id = none := by
      unfold uninstall_filter
      rw [poll_remove_poll]
      simp
    simp [filter_changes, hnone]

/-- C8 witness: removing the live filter under identifier 3 of the example
registry succeeds and a subsequent poll against it fails. -/
theorem uninstall_filter_spec_witness :
    ((uninstall_filter mex 3).1 = true ↔ (mex.poll 3).isSome = true) ∧
    ((uninstall_filter mex 3).1 = true →
      (filter_changes Bex (uninstall_filter mex 3).2 3).1 = .error .filter_not_found) :=
  uninstall_filter_spec Bex mex 3

/-- C9: poll-filter-logs never mutates any filter's stored state: the registry
after the call is identical to the registry before it, whichever identifier
was queried. -/
theorem filter_logs_frame (B : Filterable) (m : PollManager) (id : Nat) :
    (filter_logs B m id).2 = m :=
  filter_logs_snd B m id

/-- C10: registering a log filter stores the best block number at registration
time, with no +1, as its cursor, so the first poll's effective backend query
range starts at, and includes, the block that was best at registration. -/
theorem new_filter_cursor_spec (B : Filterable) (m : PollManager) (f : Filter)
    (hfresh : m.poll m.next_available_id = none) :
    (new_filter B m f).2.poll (new_filter B m f).1 =
      some (.Logs B.best_block_number [] f) ∧
    (filter_changes B (new_filter B m f).2 (new_filter B m f).1).1 =
      .ok (.Logs (limit_logs
        (B.logs (effective_filter f B.best_block_number) ++
          (if f.to_block = some .Pending then
             B.pending_logs B.best_block_number (effective_filter f B.best_block_number)
           else []))
        (effective_filter f B.best_block_number).limit)) ∧
    (effective_filter f B.best_block_number).from_block = .Number B.best_block_number := by
  have hp : (new_filter B m f).2.poll (new_filter B m f).1 =
      some (.Logs B.best_block_number [] f) :=
    poll_create_poll_fresh m _ hfresh
  refine ⟨hp, ?_, rfl⟩
  by_cases hpend : f.to_block = some .Pending <;>
    simp [filter_changes, hp, hpend, List.filter_eq_nil_iff]

/-- C10 witness: registering a log filter with latest to-block on the example
registry (whose next available identifier, 10, is fresh). -/
theorem new_filter_cursor_spec_witness :
    (new_filter Bex mex ⟨none, some .Latest, 0, none⟩).2.poll
        (new_filter Bex mex ⟨none, some .Latest, 0, none⟩).1 =
      some (.Logs Bex.best_block_number [] ⟨none, some .Latest, 0, none⟩) ∧
    (filter_changes Bex (new_filter Bex mex ⟨none, some .Latest, 0, none⟩).2
        (new_filter Bex mex ⟨none, some .Latest, 0, none⟩).1).1 =
      .ok (.Logs (limit_logs
        (Bex.logs (effective_filter ⟨none, some .Latest, 0, none⟩ Bex.best_block_number) ++
          (if (⟨none, some .Latest, 0, none⟩ : Filter).to_block = some .Pending then
             Bex.pending_logs Bex.best_block_number
               (effective_filter ⟨none, some .Latest, 0, none⟩ Bex.best_block_number)
           else []))
        (effective_filter ⟨none, some .Latest, 0, none⟩ Bex.best_block_number).limit)) ∧
    (effective_filter ⟨none, some .Latest, 0, none⟩ Bex.best_block_number).from_block =
      .Number Bex.best_block_number :=
  new_filter_cursor_spec Bex mex ⟨none, some .Latest, 0, none⟩ (by decide)

/-- C1 counterexample: on a chain whose best block (5) replays successfully
with one transaction and has a body, registering a return-data filter and
immediately polling it against the unchanged backend returns one record, not
an empty delta, because registration stores cursor best, not best + 1. -/
theorem return_data_first_poll_not_empty :
    (new_return_data_filter Bc1 PollManager.new).1 = 0 ∧
    (filter_changes Bc1 (new_return_data_filter Bc1 PollManager.new).2 0).1 =
      .ok (.ReturnData [{ transaction_hash := 42, return_data := [9], removed := false }]) ∧
    ([{ transaction_hash := 42, return_data := [9], removed := false }] : List ReturnData) ≠
      [] := by
  refine ⟨rfl, rfl, by simp⟩

/-- C1 amended: for block and pending-transaction filters a first poll against
an unchanged chain and pending state returns an empty delta; log and
return-data registration stores cursor best with no +1, so their first poll
covers the block that was best at registration and need not be empty. -/
theorem first_poll_empty_delta_amended (B : Filterable) (m : PollManager) (id : Nat)
    (f : Filter) :
    (m.poll id = some (.Block (B.best_block_number + 1)) →
      (filter_changes B m id).1 = .ok (.Hashes [])) ∧
    (m.poll id = some (.PendingTransaction B.pending_transactions_hashes) →
      (filter_changes B m id).1 = .ok (.Hashes [])) ∧
    (new_block_filter B m).2.polls =
      m.polls ++ [(m.next_available_id, .Block (B.best_block_number + 1))] ∧
    (new_pending_transaction_filter B m).2.polls =
      m.polls ++ [(m.next_available_id, .PendingTransaction B.pending_transactions_hashes)] ∧
    (new_filter B m f).2.polls =
      m.polls ++ [(m.next_available_id, .Logs B.best_block_number [] f)] ∧
    (new_return_data_filter B m).2.polls =
      m.polls ++ [(m.next_available_id, .ReturnData B.best_block_number)] := by
  refine ⟨?_, ?_, rfl, rfl, rfl, rfl⟩
  · intro h
    simp [filter_changes, h, Nat.sub_self]
  · intro h
    simp [filter_changes, h, List.filter_eq_nil_iff]

/-- C1 amended witness: against the example backend, a registry holding a
block filter with cursor best + 1 and a pending-transaction filter knowing the
full current pending list yields empty deltas on both polls. -/
theorem first_poll_empty_delta_amended_witness :
    (filter_changes Bex ⟨12, [(7, .Block 6), (8, .PendingTransaction [7, 8, 9])]⟩ 7).1 =
      .ok (.Hashes []) ∧
    (filter_changes Bex ⟨12, [(7, .Block 6), (8, .PendingTransaction [7, 8, 9])]⟩ 8).1 =
      .ok (.Hashes []) :=
  ⟨(first_poll_empty_delta_amended Bex
      ⟨12, [(7, .Block 6), (8, .PendingTransaction [7, 8, 9])]⟩ 7
      ⟨none, none, 0, none⟩).1 (by decide),
   (first_poll_empty_delta_amended Bex
      ⟨12, [(7, .Block 6), (8, .PendingTransaction [7, 8, 9])]⟩ 8
      ⟨none, none, 0, none⟩).2.1 (by decide)⟩

/-! ### Cursor monotonicity machinery (C7) -/

theorem inv_new (bd : Nat) : Inv bd PollManager.new := by
  intro id pf h
  simp [PollManager.poll, PollManager.new, List.find?] at h

theorem inv_create (bd best : Nat) (m : PollManager) (f0 : PollFilter)
    (hInv : Inv bd m) (hle : bd ≤ best)
    (hf0 : ∀ c, cursorOf f0 = some c → c ≤ best + 1) :
    Inv best (m.create_poll f0).2 := by
  intro id pf' h2 c' hc'
  rw [poll_create_poll_cases] at h2
  cases hm : m.poll id with
  | some pf =>
      rw [hm] at h2
      have hpp : pf = pf' := by
        simpa [Option.orElse] using h2
      subst hpp
      exact le_trans (hInv id pf hm c' hc') (by omega)
  | none =>
      rw [hm] at h2
      simp only [Option.orElse] at h2
      by_cases hid : m.next_available_id = id
      · rw [if_pos hid] at h2
        have hpp : f0 = pf' := by simpa using h2
        subst hpp
        exact hf0 c' hc'
      · rw [if_neg hid] at h2
        exact absurd h2 (by simp)

theorem inv_set_poll (bd : Nat) (m : PollManager) (j : Nat) (f0 : PollFilter)
    (hInv : Inv bd m) (hf0 : ∀ c, cursorOf f0 = some c → c ≤ bd + 1) :
    Inv bd (m.set_poll j f0) := by
  intro id pf' h2 c' hc'
  by_cases hid : id = j
  · subst hid
    rw [poll_set_poll_self] at h2
    cases hm : m.poll id with
    | some pf =>
        rw [hm] at h2
        have hpp : f0 = pf' := by simpa using h2
        subst hpp
        exact hf0 c' hc'
    | none => rw [hm] at h2; exact absurd h2 (by simp)
  · rw [poll_set_poll_ne m id j f0 hid] at h2
    exact hInv id pf' h2 c' hc'

theorem inv_mono (bd bd2 : Nat) (m : PollManager) (hInv : Inv bd m) (h : bd ≤ bd2) :
    Inv bd2 m := by
  intro id pf h2 c hc
  exact le_trans (hInv id pf h2 c hc) (by omega)

theorem inv_step (bd : Nat) (B : Filterable) (op : Op) (m : PollManager)
    (hInv : Inv bd m) (hle : bd ≤ B.best_block_number) :
    Inv B.best_block_number (step B op m) := by
  cases op with
  | newFilter f =>
      exact inv_create bd B.best_block_number m _ hInv hle
        (fun c hc => by simp [cursorOf] at hc; omega)
  | newBlockFilter =>
      exact inv_create bd B.best_block_number m _ hInv hle
        (fun c hc => by simp [cursorOf] at hc; omega)
  | newPendingTransactionFilter =>
      exact inv_create bd B.best_block_number m _ hInv hle
        (fun c hc => by simp [cursorOf] at hc)
  | newReturnDataFilter =>
      exact inv_create bd B.best_block_number m _ hInv hle
        (fun c hc => by simp [cursorOf] at hc; omega)
  | filterChanges j =>
      have hInv2 : Inv B.best_block_number m := inv_mono bd B.best_block_number m hInv hle
      show Inv B.best_block_number (filter_changes B m j).2
      rw [filter_changes_snd]
      cases hm : m.poll j with
      | none => exact hInv2
      | some pf =>
          cases pf with
          | Block b =>
              exact inv_set_poll _ m j _ hInv2 (fun c hc => by simp [cursorOf] at hc; omega)
          | PendingTransaction hs =>
              exact inv_set_poll _ m j _ hInv2 (fun c hc => by simp [cursorOf] at hc)
          | Logs b prev f =>
              exact inv_set_poll _ m j _ hInv2 (fun c hc => by simp [cursorOf] at hc; omega)
          | ReturnData b =>
              exact inv_set_poll _ m j _ hInv2 (fun c hc => by simp [cursorOf] at hc; omega)
  | filterLogs j =>
      show Inv B.best_block_number (filter_logs B m j).2
      rw [filter_logs_snd]
      exact inv_mono bd B.best_block_number m hInv hle
  | uninstallFilter j =>
      intro id pf' h2 c' hc'
      rw [show step B (.uninstallFilter j) m = (m.remove_poll j).2 from rfl,
        poll_remove_poll] at h2
      by_cases hid : id = j
      · rw [if_pos hid] at h2; exact absurd h2 (by simp)
      · rw [if_neg hid] at h2
        exact le_trans (hInv id pf' h2 c' hc') (by omega)

theorem step_cursor_mono (bd : Nat) (B : Filterable) (op : Op) (m : PollManager)
    (hInv : Inv bd m) (hle : bd ≤ B.best_block_number)
    (id : Nat) (pf pf' : PollFilter) (c c' : Nat)
    (h1 : m.poll id = some pf) (h2 : (step B op m).poll id = some pf')
    (hc : cursorOf pf = some c) (hc' : cursorOf pf' = some c') : c ≤ c' := by
  have hbound : c ≤ bd + 1 := hInv id pf h1 c hc
  have same : m.poll id = some pf' → c ≤ c' := by
    intro hm
    rw [h1] at hm
    have hpp : pf = pf' := by simpa using hm
    subst hpp
    rw [hc] at hc'
    have : c = c' := by simpa using hc'
    omega
  cases op with
  | newFilter f =>
      refine same ?_
      have h3 : (step B (.newFilter f) m).poll id = some pf :=
        poll_create_poll_old m _ id pf h1
      rw [h3] at h2
      rw [← h2]
      exact h1
  | newBlockFilter =>
      refine same ?_
      have h3 : (step B .newBlockFilter m).poll id = some pf :=
        poll_create_poll_old m _ id pf h1
      rw [h3] at h2
      rw [← h2]
      exact h1
  | newPendingTransactionFilter =>
      refine same ?_
      have h3 : (step B .newPendingTransactionFilter m).poll id = some pf :=
        poll_create_poll_old m _ id pf h1
      rw [h3] at h2
      rw [← h2]
      exact h1
  | newReturnDataFilter =>
      refine same ?_
      have h3 : (step B .newReturnDataFilter m).poll id = some pf :=
        poll_create_poll_old m _ id pf h1
      rw [h3] at h2
      rw [← h2]
      exact h1
  | filterLogs j =>
      refine same ?_
      rw [show step B (.filterLogs j) m = (filter_logs B m j).2 from rfl,
        filter_logs_snd] at h2
      exact h2
  | uninstallFilter j =>
      refine same ?_
      rw [show step B (.uninstallFilter j) m = (m.remove_poll j).2 from rfl,
        poll_remove_poll] at h2
      by_cases hid : id = j
      · rw [if_pos hid] at h2; exact absurd h2 (by simp)
      · rw [if_neg hid] at h2; exact h2
  | filterChanges j =>
      rw [show step B (.filterChanges j) m = (filter_changes B m j).2 from rfl,
        filter_changes_snd] at h2
      by_cases hid : id = j
      · subst hid
        rw [h1] at h2
        cases pf with
        | Block b =>
            rw [poll_set_poll_self, h1] at h2
            have hpp : PollFilter.Block (B.best_block_number + 1) = pf' := by simpa using h2
            subst hpp
            simp [cursorOf] at hc hc'
            omega
        | PendingTransaction hs => simp [cursorOf] at hc
        | Logs b prev f =>
            rw [poll_set_poll_self, h1] at h2
            have hpp : PollFilter.Logs (B.best_block_number + 1)
                (if f.to_block = some .Pending then
                   B.pending_logs B.best_block_number (effective_filter f b)
                 else prev) f = pf' := by simpa using h2
            subst hpp
            simp [cursorOf] at hc hc'
            omega
        | ReturnData b =>
            rw [poll_set_poll_self, h1] at h2
            have hpp : PollFilter.ReturnData (B.best_block_number + 1) = pf' := by
              simpa using h2
            subst hpp
            simp [cursorOf] at hc hc'
            omega
      · refine same ?_
        cases hm : m.poll j with
        | none => rw [hm] at h2; exact h2
        | some pfj =>
            rw [hm] at h2
            cases pfj <;>
              rw [poll_set_poll_ne m id j _ hid] at h2 <;> exact h2

theorem inv_runTrace (bd : Nat) (m : PollManager) (tr : List (Filterable × Op))
    (hInv : Inv bd m) (hmono : BestsMono bd tr) :
    Inv (lastBest bd tr) (runTrace m tr) := by
  induction tr generalizing bd m with
  | nil => exact hInv
  | cons x rest ih =>
      obtain ⟨h1, h2⟩ := hmono
      exact ih x.1.best_block_number (step x.1 x.2 m) (inv_step bd x.1 x.2 m hInv h1) h2

theorem bestsMono_append (bd : Nat) (tr : List (Filterable × Op)) (x : Filterable × Op)
    (h : BestsMono bd (tr ++ [x])) :
    BestsMono bd tr ∧ lastBest bd tr ≤ x.1.best_block_number := by
  induction tr generalizing bd with
  | nil =>
      obtain ⟨h1, _⟩ := h
      exact ⟨trivial, h1⟩
  | cons y rest ih =>
      obtain ⟨h1, h2⟩ := h
      obtain ⟨h3, h4⟩ := ih y.1.best_block_number h2
      exact ⟨⟨h1, h3⟩, h4⟩

/-- C7: starting from a fresh registry and running any sequence of interface
operations whose backend snapshots have non-decreasing best block numbers, no
live cursor (of a block, log, or return-data filter) ever decreases across
the next operation. -/
theorem cursor_never_decreases (tr : List (Filterable × Op)) (B : Filterable) (op : Op)
    (hmono : BestsMono 0 (tr ++ [(B, op)]))
    (id : Nat) (pf pf' : PollFilter) (c c' : Nat)
    (h1 : (runTrace PollManager.new tr).poll id = some pf)
    (h2 : (step B op (runTrace PollManager.new tr)).poll id = some pf')
    (hc : cursorOf pf = some c) (hc' : cursorOf pf' = some c') : c ≤ c' := by
  obtain ⟨hm, hl⟩ := bestsMono_append 0 tr (B, op) hmono
  have hInv := inv_runTrace 0 PollManager.new tr (inv_new 0) hm
  exact step_cursor_mono (lastBest 0 tr) B op (runTrace PollManager.new tr)
    hInv hl id pf pf' c c' h1 h2 hc hc'

/-- C7 witness: register a block filter against the example backend (cursor 6)
then poll it against the same backend; the cursor stays at 6. -/
theorem cursor_never_decreases_witness :
    (runTrace PollManager.new [(Bex, .newBlockFilter)]).poll 0 = some (.Block 6) ∧
    (step Bex (.filterChanges 0) (runTrace PollManager.new [(Bex, .newBlockFilter)])).poll 0 =
      some (.Block 6) ∧
    (6 : Nat) ≤ 6 :=
  ⟨by decide, by decide,
   cursor_never_decreases [(Bex, .newBlockFilter)] Bex (.filterChanges 0)
     (by exact ⟨by decide, by decide, trivial⟩)
     0 (.Block 6) (.Block 6) 6 6 (by decide) (by decide) rfl rfl⟩

end EthFilter
